import Mathlib

/-!
The smart-metronome program: a shallow embedding and its checked properties.

The Go sources embedded here are `metronome/pattern.go`, `metronome/metronome.go`,
`metronome/audio.go` and `ui/cli/cli.go`.

Modelling conventions

* Go `int` and `time.Duration` values are `Int`; the Go operators `/` and `%` on integers
  are the truncating `Int.tdiv` and `Int.tmod`.  No 64-bit wrap-around is modelled: the
  quantities stay far below `2 ^ 63` (a tap history built by `registerTap` holds at most
  8 taps within 2 seconds, tempos are at most 300, a render is bounded by memory).
* `float64` values are exact rationals (`ℚ`); the conversion `int(x)` of a float is
  truncation toward zero (`goInt`).  A float division whose divisor is zero yields a
  non-finite float, rendered as `none`.
* `time.Time` is an `Int` number of nanoseconds.
* A channel is the list of values it currently buffers; wall-clock timestamps, console
  output and speaker playback are left out.
-/

namespace SmartMetronome

/-! ## pattern.go -/

/-- One entry of a rhythmic pattern (`BeatDefinition`). -/
structure BeatDefinition where
  Beat : Int
  Sound : String
  Volume : ℚ
  Subdiv : Int := 0
  Accent : Bool := false
  Comment : String := ""
  deriving DecidableEq

/-- A rhythmic pattern (`Pattern`). -/
structure Pattern where
  Name : String
  Description : String
  Beats : Int
  Pattern : List BeatDefinition
  Cycle : Int := 0
  deriving DecidableEq

/-- The position in the cycle that `GetSound` computes in its first statement:
`bar = ((bar - 1) % p.Cycle) + 1` when `p.Cycle > 0`, else `bar` unchanged. -/
def Pattern.cycleBar (p : SmartMetronome.Pattern) (bar : Int) : Int :=
  if p.Cycle > 0 then Int.tmod (bar - 1) p.Cycle + 1 else bar

/-- The `for _, def := range p.Pattern` loop of `GetSound`: the first definition whose
`Beat` equals `beat` is returned, and the default `("normal", 0.7)` when the loop ends. -/
def Pattern.GetSound.scan (beat : Int) : List BeatDefinition → String × ℚ
  | [] => ("normal", 7 / 10)
  | d :: rest => if d.Beat = beat then (d.Sound, d.Volume) else scan beat rest

/-- Go `func (p *Pattern) GetSound(beat, bar int) (string, float64)`.  The normalised bar is
computed, as in the source, and then not read by the loop. -/
def Pattern.GetSound (p : SmartMetronome.Pattern) (beat bar : Int) : String × ℚ :=
  let _bar := p.cycleBar bar
  Pattern.GetSound.scan beat p.Pattern

/-- The entry `"basic"` of `PredefinedPatterns()`. -/
def PredefinedPatterns.basic : Pattern :=
  { Name := "basic"
    Description := "Базовый паттерн 4/4"
    Beats := 4
    Pattern := [
      { Beat := 1, Sound := "accent", Volume := 1, Accent := true, Comment := "Сильная доля" },
      { Beat := 2, Sound := "normal", Volume := 7 / 10, Accent := false },
      { Beat := 3, Sound := "normal", Volume := 7 / 10, Accent := false },
      { Beat := 4, Sound := "normal", Volume := 7 / 10, Accent := false }] }

/-- The entry `"shuffle"` of `PredefinedPatterns()`: a two-bar pattern whose entries 5 to 8
are commented `Второй такт` (second bar) in the source. -/
def PredefinedPatterns.shuffle : Pattern :=
  { Name := "shuffle"
    Description := "Шаффл-ритм с триольным ощущением"
    Beats := 4
    Cycle := 2
    Pattern := [
      { Beat := 1, Sound := "accent", Volume := 1, Comment := "Downbeat" },
      { Beat := 2, Sound := "ghost", Volume := 3 / 10, Comment := "Ghost note" },
      { Beat := 3, Sound := "normal", Volume := 7 / 10, Comment := "Backbeat" },
      { Beat := 4, Sound := "ghost", Volume := 3 / 10 },
      { Beat := 5, Sound := "accent", Volume := 9 / 10 },
      { Beat := 6, Sound := "ghost", Volume := 3 / 10 },
      { Beat := 7, Sound := "normal", Volume := 8 / 10 },
      { Beat := 8, Sound := "ghost", Volume := 3 / 10 }] }

/-- The entry `"poly"` of `PredefinedPatterns()`: two layers that share beat slots. -/
def PredefinedPatterns.poly : Pattern :=
  { Name := "poly"
    Description := "Полиритмия 3:4"
    Beats := 12
    Pattern := [
      { Beat := 1, Sound := "accent", Volume := 1, Comment := "3/4 - доля 1" },
      { Beat := 4, Sound := "accent", Volume := 8 / 10, Comment := "3/4 - доля 2" },
      { Beat := 7, Sound := "accent", Volume := 8 / 10, Comment := "3/4 - доля 3" },
      { Beat := 10, Sound := "accent", Volume := 8 / 10,
        Comment := "3/4 - доля 1 следующего цикла" },
      { Beat := 1, Sound := "ride", Volume := 6 / 10, Comment := "4/4 - доля 1" },
      { Beat := 4, Sound := "ride", Volume := 5 / 10, Comment := "4/4 - доля 2" },
      { Beat := 7, Sound := "ride", Volume := 5 / 10, Comment := "4/4 - доля 3" },
      { Beat := 10, Sound := "ride", Volume := 5 / 10, Comment := "4/4 - доля 4" }] }

/-! ## metronome.go -/

/-- A published tick (`TickEvent`), without its wall-clock `Timestamp`. -/
structure TickEvent where
  Beat : Int
  Bar : Int
  Volume : ℚ
  Sound : String
  deriving DecidableEq

/-- The scheduler (`Metronome`).  `stopChanClosed` records whether `close(m.stopChan)` has
run; each subscriber channel is the list of events it buffers (capacity 100).  The
ticker is not part of the state; whether the mutex `mu` is held is passed to the control
calls (`Start`, `Stop`, `SetBPM`) as `muLocked`. -/
structure Metronome where
  BPM : Int
  BeatsPerBar : Int
  Pattern : Pattern
  Running : Bool
  stopChanClosed : Bool
  subscribers : List (List TickEvent)
  beatCount : Int
  barCount : Int
  deriving DecidableEq

/-- Go `func NewMetronome(bpm, beats int, pattern *Pattern) (*Metronome, error)`; the pattern
handle is a pattern value (non-nil, as at every call site). -/
def NewMetronome (bpm beats : Int) (pattern : Pattern) : Except String Metronome :=
  if bpm < 20 ∨ bpm > 300 then
    .error "BPM должен быть от 20 до 300"
  else if beats < 1 ∨ beats > 32 then
    .error "количество долей должно быть от 1 до 32"
  else
    .ok { BPM := bpm
          BeatsPerBar := beats
          Pattern := pattern
          Running := false
          stopChanClosed := false
          subscribers := []
          beatCount := 0
          barCount := 1 }

/-- Go `func (m *Metronome) notifySubscribers(event TickEvent)`: the non-blocking send
`select { case ch <- event: default: }` on each subscriber channel of capacity 100. -/
def Metronome.notifySubscribers (m : Metronome) (event : TickEvent) : Metronome :=
  { m with subscribers :=
      m.subscribers.map (fun ch => if ch.length < 100 then ch ++ [event] else ch) }

/-- Go `func (m *Metronome) handleTick()`: the counter update, the pattern lookup and the
publication of the event; the event built is returned next to the new state. -/
def Metronome.handleTick (m : Metronome) : Metronome × TickEvent :=
  let beatCount := m.beatCount + 1
  let wrapped := decide (beatCount > m.BeatsPerBar)
  let beatCount := if wrapped then 1 else beatCount
  let barCount := if wrapped then m.barCount + 1 else m.barCount
  let m1 := { m with beatCount := beatCount, barCount := barCount }
  let sv := m1.Pattern.GetSound m1.beatCount m1.barCount
  let event : TickEvent :=
    { Beat := m1.beatCount, Bar := m1.barCount, Volume := sv.2, Sound := sv.1 }
  (m1.notifySubscribers event, event)

/-- The state after `n` firings of the ticker, each handled by `handleTick`. -/
def Metronome.ticks : Nat → Metronome → Metronome
  | 0, m => m
  | n + 1, m => (Metronome.ticks n m).handleTick.1

/-- The event published by the `n`-th tick (`n ≥ 1`) counted from state `m`. -/
def Metronome.tickEvent (n : Nat) (m : Metronome) : TickEvent :=
  (Metronome.ticks (n - 1) m).handleTick.2

/-- How a call of a scheduler method ends: it returns (with its error value, the new
state, and whether `m.mu` is held afterwards), it blocks forever in `m.mu.Lock()`
because the mutex is already held and `sync.Mutex` is not reentrant, or it panics. -/
inductive Outcome where
  | returned (err : Option String) (m : Metronome) (muLocked : Bool)
  | blocked (m : Metronome)
  | panicked (m : Metronome)
  deriving DecidableEq

/-- Go `func (m *Metronome) Start() error`, called while `m.mu` is held or not
(`muLocked`).  The tick loop it launches selects on `m.stopChan`, which `Start` does not
create anew: when `stopChanClosed` holds, the loop finds the channel closed. -/
def Metronome.Start (m : Metronome) (muLocked : Bool) : Outcome :=
  if muLocked then .blocked m
  else if m.Running then .returned (some "метроном уже запущен") m false
  else .returned none { m with Running := true, beatCount := 0, barCount := 1 } false

/-- Go `func (m *Metronome) Stop()`, called while `m.mu` is held or not.  The statement
`close(m.stopChan)` panics on a channel that is already closed; the subscriber channels
are closed and dropped. -/
def Metronome.Stop (m : Metronome) (muLocked : Bool) : Outcome :=
  if muLocked then .blocked m
  else if !m.Running then .returned none m false
  else
    let m1 := { m with Running := false }
    if m1.stopChanClosed then .panicked m1
    else .returned none { m1 with stopChanClosed := true, subscribers := [] } false

/-- Go `func (m *Metronome) Subscribe() <-chan TickEvent`: a new, empty channel of
capacity 100 is appended. -/
def Metronome.Subscribe (m : Metronome) (muLocked : Bool) : Outcome :=
  if muLocked then .blocked m
  else .returned none { m with subscribers := m.subscribers ++ [[]] } false

/-- Go `func (m *Metronome) SetBPM(bpm int) error`: after the range check it takes
`m.mu` and, still holding it, calls `m.Stop()` and `m.Start()` when the metronome was
running; its last statement, `m.mu.Unlock()`, is a fatal error on a free mutex. -/
def Metronome.SetBPM (m : Metronome) (muLocked : Bool) (bpm : Int) : Outcome :=
  if bpm < 20 ∨ bpm > 300 then .returned (some "BPM должен быть от 20 до 300") m muLocked
  else if muLocked then .blocked m
  else
    let wasRunning := m.Running
    let afterStop : Outcome := if wasRunning then m.Stop true else .returned none m true
    match afterStop with
    | .returned _ m1 mu1 =>
      let m2 := { m1 with BPM := bpm }
      let afterStart : Outcome :=
        if wasRunning then m2.Start mu1 else .returned none m2 mu1
      match afterStart with
      | .returned _ m3 mu3 => if mu3 then .returned none m3 false else .panicked m3
      | o => o
    | o => o

/-- The control calls `Start` and `Stop`, as a caller issues them one after the other. -/
inductive Call where
  | start
  | stop
  deriving DecidableEq

/-- One control call, made while `m.mu` is free. -/
def Metronome.call (m : Metronome) : Call → Outcome
  | .start => m.Start false
  | .stop => m.Stop false

/-- A sequence of control calls, one after the other; it ends at the first call that
does not return. -/
def Metronome.calls (m : Metronome) : List Call → Outcome
  | [] => .returned none m false
  | c :: rest =>
    match m.call c with
    | .returned _ m1 _ => Metronome.calls m1 rest
    | o => o

/-! ## audio.go -/

/-- The conversion `int(x)` (and `time.Duration(x)`) of a `float64`: truncation toward
zero. -/
def goInt (q : ℚ) : Int :=
  if 0 ≤ q then ⌊q⌋ else ⌈q⌉

/-- A `float64` division: a zero divisor yields a non-finite float, rendered as `none`. -/
def fdiv (a b : ℚ) : Option ℚ :=
  if b = 0 then none else some (a / b)

/-- The package variable `sampleRate = 44100`. -/
def sampleRate : Int := 44100

/-- Go `func adsrEnvelope(sample, totalSamples int) float64`. -/
def adsrEnvelope (sample totalSamples : Int) : Option ℚ :=
  let attack := Int.tdiv totalSamples 10
  let decay := Int.tdiv totalSamples 5
  let release := Int.tdiv totalSamples 10
  let sustain : ℚ := 7 / 10
  if sample < attack then
    fdiv (sample : ℚ) (attack : ℚ)
  else if sample < attack + decay then
    (fdiv ((sample - attack : Int) : ℚ) (decay : ℚ)).map
      (fun decayPos => 1 - (1 - sustain) * decayPos)
  else if sample < totalSamples - release then
    some sustain
  else
    (fdiv ((sample - (totalSamples - release) : Int) : ℚ) (release : ℚ)).map
      (fun releasePos => sustain * (1 - releasePos))

/-- Go `func (m *Metronome) adsrEnvelope(sample, totalSamples int) float64`, the method
copy of `adsrEnvelope` used by the offline renderer; the receiver is not read. -/
def Metronome.adsrEnvelope (_m : Metronome) (sample totalSamples : Int) : Option ℚ :=
  let attack := Int.tdiv totalSamples 10
  let decay := Int.tdiv totalSamples 5
  let release := Int.tdiv totalSamples 10
  let sustain : ℚ := 7 / 10
  if sample < attack then
    fdiv (sample : ℚ) (attack : ℚ)
  else if sample < attack + decay then
    (fdiv ((sample - attack : Int) : ℚ) (decay : ℚ)).map
      (fun decayPos => 1 - (1 - sustain) * decayPos)
  else if sample < totalSamples - release then
    some sustain
  else
    (fdiv ((sample - (totalSamples - release) : Int) : ℚ) (release : ℚ)).map
      (fun releasePos => sustain * (1 - releasePos))

/-- The `Format` of a go-audio buffer. -/
structure Format where
  SampleRate : Int
  NumChannels : Int
  deriving DecidableEq

/-- The go-audio `IntBuffer`: `Data` holds the samples of all channels interleaved. -/
structure IntBuffer where
  Data : List Int
  Format : Format
  SourceBitDepth : Int
  deriving DecidableEq

/-- The number of frames of an interleaved buffer, `len(buf.Data) / NumChannels`
(go-audio `IntBuffer.NumFrames`): with 2 channels a frame is one left and one right
sample. -/
def IntBuffer.NumFrames (buf : IntBuffer) : Int :=
  Int.tdiv (buf.Data.length : Int) buf.Format.NumChannels

/-- The `switch soundType` of `addSoundToBuffer`: frequency and adjusted volume. -/
def soundFreqVolume (soundType : String) (volume : ℚ) : ℚ × ℚ :=
  if soundType = "accent" then (880, volume)
  else if soundType = "ride" then (131851 / 100, volume)
  else if soundType = "normal" then (440, volume)
  else if soundType = "ghost" then (220, volume * (3 / 10))
  else (440, volume)

/-- One iteration, index `i`, of the sample loop of `addSoundToBuffer`.  `sinTurn x`
stands for `math.Sin(2 * math.Pi * x)`.  The loop condition `startIdx+i < len(buf.Data)`
is monotone in `i`, so leaving the loop there equals skipping every later iteration.  A
non-finite envelope (never met for `0 ≤ i < soundSamples`) writes 0. -/
def Metronome.addSoundToBuffer.step (sinTurn : ℚ → ℚ) (m : Metronome)
    (startIdx soundSamples : Int) (freq volume : ℚ) (buf : IntBuffer) (i : Nat) :
    IntBuffer :=
  if startIdx + (i : Int) < (buf.Data.length : Int) then
    let t : ℚ := (i : ℚ) / (buf.Format.SampleRate : ℚ)
    let sample := sinTurn (freq * t)
    let val : Int :=
      match m.adsrEnvelope (i : Int) soundSamples with
      | some envelope => goInt (sample * (volume * envelope) * 32767)
      | none => 0
    let idx := startIdx + (i : Int)
    { buf with Data := buf.Data.set idx.toNat val }
  else
    buf

/-- Go `func (m *Metronome) addSoundToBuffer(buf, startIdx, durationSamples, soundType,
volume)`: a tone of `durationSamples / 10` samples written from `startIdx` on. -/
def Metronome.addSoundToBuffer (sinTurn : ℚ → ℚ) (m : Metronome) (buf : IntBuffer)
    (startIdx durationSamples : Int) (soundType : String) (volume : ℚ) : IntBuffer :=
  let fv := soundFreqVolume soundType volume
  let soundSamples := Int.tdiv durationSamples 10
  (List.range soundSamples.toNat).foldl
    (Metronome.addSoundToBuffer.step sinTurn m startIdx soundSamples fv.1 fv.2) buf

/-- The beat interval of `GenerateWAV`,
`int(float64(sampleRate) * 60.0 / float64(m.BPM))`. -/
def Metronome.intervalSamples (m : Metronome) : Option Int :=
  (fdiv ((sampleRate : ℚ) * 60) (m.BPM : ℚ)).map goInt

/-- The variables of the frame walk of `GenerateWAV`; `resolved` lists, latest first,
the frame index and the result of every call of `Pattern.GetSound`. -/
structure WavState where
  beatCount : Int
  barCount : Int
  buf : IntBuffer
  resolved : List (Nat × (String × ℚ))

/-- One iteration, frame index `i`, of the frame walk of `GenerateWAV`. -/
def Metronome.GenerateWAV.step (sinTurn : ℚ → ℚ) (m : Metronome) (intervalSamples : Int)
    (st : WavState) (i : Nat) : WavState :=
  if Int.tmod (i : Int) intervalSamples = 0 then
    let beatCount := st.beatCount + 1
    let wrapped := decide (beatCount > m.BeatsPerBar)
    let beatCount := if wrapped then 1 else beatCount
    let barCount := if wrapped then st.barCount + 1 else st.barCount
    let sv := m.Pattern.GetSound beatCount barCount
    { beatCount := beatCount
      barCount := barCount
      buf := m.addSoundToBuffer sinTurn st.buf (i : Int) intervalSamples sv.1 sv.2
      resolved := (i, sv) :: st.resolved }
  else
    st

/-- The frame walk `for i := 0; i < totalSamples; i++` of `GenerateWAV` after its first
`n` iterations, from the initial variables: `beatCount = 0`, `barCount = 1` and the
silent buffer `make([]int, totalSamples)` declared with 2 channels. -/
def Metronome.GenerateWAV.walk (sinTurn : ℚ → ℚ) (m : Metronome) (intervalSamples : Int)
    (totalSamples n : Nat) : WavState :=
  (List.range n).foldl (Metronome.GenerateWAV.step sinTurn m intervalSamples)
    { beatCount := 0, barCount := 1,
      buf := { Data := List.replicate totalSamples 0
               Format := { SampleRate := sampleRate, NumChannels := 2 }
               SourceBitDepth := 16 },
      resolved := [] }

/-- Go `func (m *Metronome) GenerateWAV(filename string, durationSeconds int) error`, up
to the buffer handed to the WAV encoder (2 channels); the file operations are left out.
The result `none` is a run-time panic: a negative `make` length, or the remainder by a
zero interval. -/
def Metronome.GenerateWAV (sinTurn : ℚ → ℚ) (m : Metronome) (durationSeconds : Int) :
    Option WavState :=
  let totalSamples := sampleRate * durationSeconds
  match m.intervalSamples with
  | none => none
  | some intervalSamples =>
    if totalSamples < 0 then none
    else if intervalSamples = 0 ∧ 0 < totalSamples then none
    else
      some (Metronome.GenerateWAV.walk sinTurn m intervalSamples totalSamples.toNat
        totalSamples.toNat)

/-! ## ui/cli/cli.go -/

/-- The tap estimator (`TapTempo`); times are nanoseconds. -/
structure TapTempo where
  taps : List Int
  lastTap : Int
  minTaps : Int
  maxTaps : Int
  timeout : Int
  deriving DecidableEq

/-- The constant `time.Second`, in nanoseconds. -/
def second : Int := 1000000000

/-- The constant `time.Minute`, in nanoseconds. -/
def minute : Int := 60 * second

/-- Go `func NewTapTempo() *TapTempo`. -/
def NewTapTempo : TapTempo :=
  { taps := [], lastTap := 0, minTaps := 2, maxTaps := 8, timeout := 2 * second }

/-- Go `func (t *TapTempo) cleanOldTaps(now time.Time)`. -/
def TapTempo.cleanOldTaps (t : TapTempo) (now : Int) : TapTempo :=
  let cutoff := now - t.timeout
  { t with taps := t.taps.filter (fun tap => decide (tap > cutoff)) }

/-- Go `func (t *TapTempo) registerTap()`, with the reading of the clock as argument. -/
def TapTempo.registerTap (t : TapTempo) (now : Int) : TapTempo :=
  let t1 := t.cleanOldTaps now
  let taps := t1.taps ++ [now]
  let taps :=
    if (taps.length : Int) > t1.maxTaps then
      taps.drop ((taps.length : Int) - t1.maxTaps).toNat
    else taps
  { t1 with taps := taps, lastTap := now }

/-- The values `t.taps[i].Sub(t.taps[i-1])` for `i = 1 .. len(t.taps) - 1`, in order. -/
def TapTempo.intervals (t : TapTempo) : List Int :=
  List.zipWith (fun prev next => next - prev) t.taps t.taps.tail

/-- The value `time.Duration(math.Sqrt(x))`: the square root truncated to a whole
number of nanoseconds, which for `x ≥ 0` is the integer square root of `⌊x⌋`. -/
def sqrtDuration (x : ℚ) : Int :=
  (Nat.sqrt ⌊x⌋.toNat : Int)

/-- Go `func (t *TapTempo) calculateBPM() (int, float64)`.  `none` is the run-time panic of
an integer division by zero. -/
def TapTempo.calculateBPM (t : TapTempo) : Option (Int × ℚ) :=
  if (t.taps.length : Int) < t.minTaps then some (0, 0)
  else
    let totalInterval := t.intervals.sum
    let n : Int := (t.taps.length : Int) - 1
    if n = 0 then none
    else
      let avgInterval := Int.tdiv totalInterval n
      if avgInterval = 0 then none
      else
        let bpm := Int.tdiv minute avgInterval
        let sumSqDiff : ℚ :=
          (t.intervals.map (fun d => ((d - avgInterval : Int) : ℚ) *
            ((d - avgInterval : Int) : ℚ))).sum
        let stdDev := sqrtDuration (sumSqDiff / (n : ℚ))
        let stability : ℚ := 100 * (1 - (stdDev : ℚ) / (avgInterval : ℚ))
        some (bpm, stability)

/-- The estimator of `NewTapTempo` once its history is `taps`. -/
@[reducible] def withTaps (taps : List Int) : TapTempo :=
  { NewTapTempo with taps := taps }

/-- The mean of the consecutive inter-tap intervals of a history, in nanoseconds, as an
exact rational: their sum divided by their number. -/
def meanInterval (taps : List Int) : ℚ :=
  ((withTaps taps).intervals.sum : ℚ) / ((taps.length - 1 : Nat) : ℚ)

/-- The last `k` elements of a list, all of them if it has fewer. -/
def lastN (k : Nat) (l : List Int) : List Int :=
  l.drop (l.length - k)

/-- A tap is strictly younger than `age` at time `now`. -/
def youngerThan (age now tap : Int) : Bool :=
  decide (now - tap < age)

/-- A tap is not older than `age` at time `now`: its age is at most `age`. -/
def notOlderThan (age now tap : Int) : Bool :=
  decide (now - tap ≤ age)

/-- A tap history of `n` taps, the first at `start`, each `step` after the previous. -/
def evenTaps (start step : Int) : Nat → List Int
  | 0 => []
  | n + 1 => start :: evenTaps (start + step) step n

/-! ## Fixtures -/

/-- The metronome built by `NewMetronome 120 4 basic`. -/
def basicMetronome : Metronome :=
  { BPM := 120, BeatsPerBar := 4, Pattern := PredefinedPatterns.basic, Running := false,
    stopChanClosed := false, subscribers := [], beatCount := 0, barCount := 1 }

/-- The metronome built by `NewMetronome 120 4 shuffle`. -/
def shuffleMetronome : Metronome :=
  { BPM := 120, BeatsPerBar := 4, Pattern := PredefinedPatterns.shuffle, Running := false,
    stopChanClosed := false, subscribers := [], beatCount := 0, barCount := 1 }

/-- The metronome built by `NewMetronome bpm 4 basic` for a valid `bpm`. -/
def basicAt (bpm : Int) : Metronome :=
  { basicMetronome with BPM := bpm }

/-- The state of `NewMetronome 120 4 basic` after a successful `Start`. -/
def runningMetronome : Metronome :=
  { basicMetronome with Running := true }

/-- A running metronome with two subscribers: the first channel is full (100 buffered
events), the second is empty. -/
def fanoutMetronome : Metronome :=
  { runningMetronome with
    subscribers :=
      [List.replicate 100 { Beat := 1, Bar := 1, Volume := 1, Sound := "accent" }, []] }

/-! ## Properties -/

/-- C1: `NewMetronome bpm beats pattern` returns a metronome (and no error) exactly when
`20 ≤ bpm ≤ 300` and `1 ≤ beats ≤ 32`; for every other pair it returns an error and no
metronome. -/
theorem NewMetronome_ok_iff (bpm beats : Int) (pattern : Pattern) :
    ((∃ m, NewMetronome bpm beats pattern = .ok m) ↔
        (20 ≤ bpm ∧ bpm ≤ 300) ∧ (1 ≤ beats ∧ beats ≤ 32)) ∧
    ((∃ e, NewMetronome bpm beats pattern = .error e) ↔
        ¬ ((20 ≤ bpm ∧ bpm ≤ 300) ∧ (1 ≤ beats ∧ beats ≤ 32))) := by
  unfold NewMetronome
  by_cases h1 : bpm < 20 ∨ bpm > 300
  · simp only [h1, if_true]
    exact ⟨⟨fun ⟨m, hm⟩ => (by cases hm), fun h => (by omega)⟩,
      ⟨fun _ => (by omega), fun _ => ⟨_, rfl⟩⟩⟩
  · by_cases h2 : beats < 1 ∨ beats > 32
    · simp only [h1, h2, if_true, if_false]
      exact ⟨⟨fun ⟨m, hm⟩ => (by cases hm), fun h => (by omega)⟩,
        ⟨fun _ => (by omega), fun _ => ⟨_, rfl⟩⟩⟩
    · simp only [h1, h2, if_false]
      exact ⟨⟨fun _ => (by omega), fun _ => ⟨_, rfl⟩⟩,
        ⟨fun ⟨e, he⟩ => (by cases he), fun h => (by omega)⟩⟩

/-! ### The tick advance -/

theorem handleTick_BeatsPerBar (m : Metronome) :
    m.handleTick.1.BeatsPerBar = m.BeatsPerBar := rfl

theorem handleTick_Pattern (m : Metronome) :
    m.handleTick.1.Pattern = m.Pattern := rfl

theorem handleTick_beatCount (m : Metronome) :
    m.handleTick.1.beatCount =
      if m.beatCount + 1 > m.BeatsPerBar then 1 else m.beatCount + 1 := by
  simp [Metronome.handleTick, Metronome.notifySubscribers]

theorem handleTick_barCount (m : Metronome) :
    m.handleTick.1.barCount =
      if m.beatCount + 1 > m.BeatsPerBar then m.barCount + 1 else m.barCount := by
  simp [Metronome.handleTick, Metronome.notifySubscribers]

theorem ticks_BeatsPerBar (n : Nat) (m : Metronome) :
    (Metronome.ticks n m).BeatsPerBar = m.BeatsPerBar := by
  induction n with
  | zero => rfl
  | succ n ih => rw [Metronome.ticks, handleTick_BeatsPerBar, ih]

theorem ticks_Pattern (n : Nat) (m : Metronome) :
    (Metronome.ticks n m).Pattern = m.Pattern := by
  induction n with
  | zero => rfl
  | succ n ih => rw [Metronome.ticks, handleTick_Pattern, ih]

/-- Closed form of the counters: from beat 0 and bar 1, tick number `n + 1` leaves the
beat counter at `n % B + 1` and the bar counter at `n / B + 1`. -/
theorem ticks_counters (m : Metronome) (B : Nat) (hB : 1 ≤ B)
    (hm : m.BeatsPerBar = (B : Int)) (h0 : m.beatCount = 0) (h1 : m.barCount = 1)
    (n : Nat) :
    (Metronome.ticks (n + 1) m).beatCount = ((n % B : Nat) : Int) + 1 ∧
    (Metronome.ticks (n + 1) m).barCount = ((n / B : Nat) : Int) + 1 := by
  induction n with
  | zero =>
    have hb : (Metronome.ticks 1 m).beatCount = 1 := by
      show m.handleTick.1.beatCount = 1
      rw [handleTick_beatCount, hm, h0]
      have : ¬ ((0 : Int) + 1 > (B : Int)) := by omega
      rw [if_neg this]
      rfl
    have hr : (Metronome.ticks 1 m).barCount = 1 := by
      show m.handleTick.1.barCount = 1
      rw [handleTick_barCount, hm, h0, h1]
      have : ¬ ((0 : Int) + 1 > (B : Int)) := by omega
      rw [if_neg this]
    simp [hb, hr, Nat.zero_mod, Nat.zero_div]
  | succ n ih =>
    obtain ⟨ihb, ihr⟩ := ih
    have hlt : n % B < B := Nat.mod_lt _ (by omega)
    have hdm : B * (n / B) + n % B = n := Nat.div_add_mod n B
    have hBp : 0 < B := by omega
    show (Metronome.ticks (n + 1) m).handleTick.1.beatCount = _ ∧
      (Metronome.ticks (n + 1) m).handleTick.1.barCount = _
    rw [handleTick_beatCount, handleTick_barCount, ticks_BeatsPerBar, hm, ihb, ihr]
    by_cases hw : n % B + 1 = B
    · have hcond : ((n % B : Nat) : Int) + 1 + 1 > (B : Int) := by omega
      have hq : (n + 1) / B = n / B + 1 ∧ (n + 1) % B = 0 :=
        (Nat.div_mod_unique hBp).2 ⟨by
          have : B * (n / B + 1) = B * (n / B) + B := by ring
          omega, hBp⟩
      rw [if_pos hcond, if_pos hcond, hq.1, hq.2]
      constructor <;> simp
    · have hcond : ¬ (((n % B : Nat) : Int) + 1 + 1 > (B : Int)) := by omega
      have hq : (n + 1) / B = n / B ∧ (n + 1) % B = n % B + 1 :=
        (Nat.div_mod_unique hBp).2 ⟨by omega, by omega⟩
      rw [if_neg hcond, if_neg hcond, hq.1, hq.2]
      constructor <;> simp

/-- C2 (as amended): from beat counter 0 and bar counter 1, with `B` beats per bar
(`1 ≤ B ≤ 32`), after `B * k + r` ticks (`r < B`) the beat counter is `r` and the bar
counter is `k + 1`, except that after a whole number `k > 0` of bars (`r = 0`) the beat
counter is `B` and the bar counter is still `k`. -/
theorem ticks_beat_bar (m : Metronome) (B k r : Nat) (hB1 : 1 ≤ B) (hB32 : B ≤ 32)
    (hm : m.BeatsPerBar = (B : Int)) (h0 : m.beatCount = 0) (h1 : m.barCount = 1)
    (hr : r < B) :
    (Metronome.ticks (B * k + r) m).beatCount =
        (if r = 0 ∧ 0 < k then (B : Int) else (r : Int)) ∧
    (Metronome.ticks (B * k + r) m).barCount =
        (if r = 0 ∧ 0 < k then (k : Int) else (k : Int) + 1) := by
  have hBp : 0 < B := by omega
  by_cases hc : r = 0 ∧ 0 < k
  · obtain ⟨hr0, hk⟩ := hc
    subst hr0
    obtain ⟨j, rfl⟩ : ∃ j, k = j + 1 := ⟨k - 1, by omega⟩
    have hn : B * (j + 1) + 0 = (B * j + (B - 1)) + 1 := by
      have : B * (j + 1) = B * j + B := by ring
      omega
    have hq : (B * j + (B - 1)) / B = j ∧ (B * j + (B - 1)) % B = B - 1 :=
      (Nat.div_mod_unique hBp).2 ⟨by omega, by omega⟩
    obtain ⟨hb, hbar⟩ := ticks_counters m B hB1 hm h0 h1 (B * j + (B - 1))
    rw [hn, hb, hbar, hq.1, hq.2]
    simp
    omega
  · rw [if_neg hc, if_neg hc]
    by_cases hr0 : r = 0
    · have hk : k = 0 := by
        by_contra hk
        exact hc ⟨hr0, by omega⟩
      subst hr0 hk
      simp [Metronome.ticks, h0, h1]
    · obtain ⟨s, rfl⟩ : ∃ s, r = s + 1 := ⟨r - 1, by omega⟩
      have hq : (B * k + s) / B = k ∧ (B * k + s) % B = s :=
        (Nat.div_mod_unique hBp).2 ⟨by omega, by omega⟩
      obtain ⟨hb, hbar⟩ := ticks_counters m B hB1 hm h0 h1 (B * k + s)
      have hn : B * k + (s + 1) = (B * k + s) + 1 := by omega
      rw [hn, hb, hbar, hq.1, hq.2]
      simp

/-- C2, witness: 4 beats per bar, `k = 1`, `r = 0` (four ticks): beat 4 of bar 1. -/
theorem ticks_beat_bar_witness :
    (Metronome.ticks (4 * 1 + 0) basicMetronome).beatCount =
        (if (0 : Nat) = 0 ∧ 0 < 1 then ((4 : Nat) : Int) else ((0 : Nat) : Int)) ∧
    (Metronome.ticks (4 * 1 + 0) basicMetronome).barCount =
        (if (0 : Nat) = 0 ∧ 0 < 1 then ((1 : Nat) : Int) else ((1 : Nat) : Int) + 1) :=
  ticks_beat_bar basicMetronome 4 1 0 (by decide) (by decide) rfl rfl rfl (by decide)

/-- C2, counterexample to the claim as written: with 4 beats per bar, after
`4 * 1 + 0` ticks (`k = 1`, `r = 0`) the bar counter is `1`, not `k + 1 = 2`. -/
theorem ticks_bar_counterexample :
    NewMetronome 120 4 PredefinedPatterns.basic = .ok basicMetronome ∧
    (Metronome.ticks (4 * 1 + 0) basicMetronome).barCount = 1 ∧
    (Metronome.ticks (4 * 1 + 0) basicMetronome).barCount ≠ 1 + 1 := by
  refine ⟨rfl, ?_, ?_⟩
  · simp [Metronome.ticks, handleTick_barCount, handleTick_beatCount,
      handleTick_BeatsPerBar, basicMetronome]
  · simp [Metronome.ticks, handleTick_barCount, handleTick_beatCount,
      handleTick_BeatsPerBar, basicMetronome]

/-! ### Pattern lookup -/

theorem scan_first_match (beat : Int) (pre : List BeatDefinition) (d : BeatDefinition)
    (post : List BeatDefinition) (hpre : ∀ e ∈ pre, e.Beat ≠ beat) (hd : d.Beat = beat) :
    Pattern.GetSound.scan beat (pre ++ d :: post) = (d.Sound, d.Volume) := by
  induction pre with
  | nil => simp [Pattern.GetSound.scan, hd]
  | cons e pre ih =>
    have he : e.Beat ≠ beat := hpre e (List.mem_cons_self _ _)
    have ht : ∀ x ∈ pre, x.Beat ≠ beat := fun x hx => hpre x (List.mem_cons_of_mem _ hx)
    simp [Pattern.GetSound.scan, he, ih ht]

theorem scan_no_match (beat : Int) (l : List BeatDefinition)
    (h : ∀ e ∈ l, e.Beat ≠ beat) :
    Pattern.GetSound.scan beat l = ("normal", 7 / 10) := by
  induction l with
  | nil => rfl
  | cons e l ih =>
    have he : e.Beat ≠ beat := h e (List.mem_cons_self _ _)
    have ht : ∀ x ∈ l, x.Beat ≠ beat := fun x hx => h x (List.mem_cons_of_mem _ hx)
    simp [Pattern.GetSound.scan, he, ih ht]

/-- C3: `GetSound` returns the sound and volume of the first definition, in definition
order, whose `Beat` equals the beat argument (whatever follows it, same-beat entries
included); it returns `("normal", 0.7)` when no definition has that beat; and its result
is the same for every bar argument. -/
theorem GetSound_first_match (p : Pattern) (beat bar : Int) :
    (∀ (pre : List BeatDefinition) (d : BeatDefinition) (post : List BeatDefinition),
        p.Pattern = pre ++ d :: post → (∀ e ∈ pre, e.Beat ≠ beat) → d.Beat = beat →
        p.GetSound beat bar = (d.Sound, d.Volume)) ∧
    ((∀ e ∈ p.Pattern, e.Beat ≠ beat) → p.GetSound beat bar = ("normal", 7 / 10)) ∧
    (∀ bar2 : Int, p.GetSound beat bar2 = p.GetSound beat bar) := by
  refine ⟨?_, ?_, ?_⟩
  · intro pre d post hp hpre hd
    show Pattern.GetSound.scan beat p.Pattern = _
    rw [hp]
    exact scan_first_match beat pre d post hpre hd
  · intro h
    exact scan_no_match beat p.Pattern h
  · intro bar2
    rfl

/-- C3, witness: in the built-in `"poly"` pattern both the first and the fifth entry
have `Beat = 1`; the lookup of beat 1 gives the first, `("accent", 1.0)`, and a beat
without entry gives the default. -/
theorem GetSound_first_match_witness :
    PredefinedPatterns.poly.GetSound 1 3 = ("accent", 1) ∧
    PredefinedPatterns.poly.GetSound 2 3 = ("normal", 7 / 10) ∧
    PredefinedPatterns.poly.GetSound 1 8 = PredefinedPatterns.poly.GetSound 1 3 :=
  ⟨(GetSound_first_match PredefinedPatterns.poly 1 3).1 []
      { Beat := 1, Sound := "accent", Volume := 1, Comment := "3/4 - доля 1" } _ rfl
      (by simp) rfl,
   (GetSound_first_match PredefinedPatterns.poly 2 3).2.1
      (by simp [PredefinedPatterns.poly]),
   (GetSound_first_match PredefinedPatterns.poly 1 3).2.2 8⟩

/-- C4: for the built-in `"basic"` pattern and every bar, beat 1 resolves to
`("accent", 1.0)` and each of the beats 2, 3 and 4 resolves to `("normal", 0.7)`. -/
theorem basic_GetSound (bar : Int) :
    PredefinedPatterns.basic.GetSound 1 bar = ("accent", 1) ∧
    PredefinedPatterns.basic.GetSound 2 bar = ("normal", 7 / 10) ∧
    PredefinedPatterns.basic.GetSound 3 bar = ("normal", 7 / 10) ∧
    PredefinedPatterns.basic.GetSound 4 bar = ("normal", 7 / 10) := by
  simp [Pattern.GetSound, Pattern.GetSound.scan, PredefinedPatterns.basic]

/-! ### The two-bar cycle of `"shuffle"` -/

theorem handleTick_event (m : Metronome) :
    m.handleTick.2.Beat = m.handleTick.1.beatCount ∧
    m.handleTick.2.Bar = m.handleTick.1.barCount ∧
    (m.handleTick.2.Sound, m.handleTick.2.Volume) =
      m.Pattern.GetSound m.handleTick.1.beatCount m.handleTick.1.barCount := by
  simp [Metronome.handleTick, Metronome.notifySubscribers]

/-- C5 (what the code does): driven by the tick advance with 4 beats per bar, the
`"shuffle"` pattern (`Cycle = 2`) never sees a raw beat counter of 5 and no tick
resolves to the slot-5 entry `("accent", 0.9)`: tick `n + 1` has beat `n % 4 + 1` and
resolves to the entry of that beat in both bars of the cycle; tick 5, the first beat of
bar 2, resolves to the slot-1 entry `("accent", 1.0)`. -/
theorem shuffle_slot5_never_resolved (n : Nat) :
    (Metronome.ticks n shuffleMetronome).beatCount ≠ 5 ∧
    (Metronome.tickEvent (n + 1) shuffleMetronome).Beat = ((n % 4 : Nat) : Int) + 1 ∧
    (Metronome.tickEvent (n + 1) shuffleMetronome).Bar = ((n / 4 : Nat) : Int) + 1 ∧
    ((Metronome.tickEvent (n + 1) shuffleMetronome).Sound,
      (Metronome.tickEvent (n + 1) shuffleMetronome).Volume) ≠ ("accent", 9 / 10) ∧
    Metronome.tickEvent 5 shuffleMetronome =
      { Beat := 1, Bar := 2, Volume := 1, Sound := "accent" } := by
  have hc := fun k => ticks_counters shuffleMetronome 4 (by decide) rfl rfl rfl k
  have hev := handleTick_event (Metronome.ticks n shuffleMetronome)
  have hn := hc n
  have hlt : n % 4 < 4 := Nat.mod_lt _ (by decide)
  refine ⟨?_, ?_, ?_, ?_, ?_⟩
  · cases n with
    | zero => simp [Metronome.ticks, shuffleMetronome]
    | succ k =>
      have := (hc k).1
      have hk : k % 4 < 4 := Nat.mod_lt _ (by decide)
      omega
  · show (Metronome.ticks n shuffleMetronome).handleTick.2.Beat = _
    rw [hev.1]
    exact hn.1
  · show (Metronome.ticks n shuffleMetronome).handleTick.2.Bar = _
    rw [hev.2.1]
    exact hn.2
  · show ((Metronome.ticks n shuffleMetronome).handleTick.2.Sound,
      (Metronome.ticks n shuffleMetronome).handleTick.2.Volume) ≠ _
    rw [hev.2.2, ticks_Pattern]
    have hb : (Metronome.ticks n shuffleMetronome).handleTick.1.beatCount
        = ((n % 4 : Nat) : Int) + 1 := hn.1
    rw [hb]
    have h4 : n % 4 = 0 ∨ n % 4 = 1 ∨ n % 4 = 2 ∨ n % 4 = 3 := by omega
    rcases h4 with h | h | h | h <;> rw [h] <;>
      norm_num [Pattern.GetSound, Pattern.GetSound.scan, PredefinedPatterns.shuffle,
        shuffleMetronome]
  · have h4 := hc 4
    have he := handleTick_event (Metronome.ticks 4 shuffleMetronome)
    show (Metronome.ticks 4 shuffleMetronome).handleTick.2 = _
    have hb : (Metronome.ticks 4 shuffleMetronome).handleTick.1.beatCount = 1 := by
      have := h4.1
      simpa using this
    have hbar : (Metronome.ticks 4 shuffleMetronome).handleTick.1.barCount = 2 := by
      have := h4.2
      simpa using this
    rw [hb, hbar, ticks_Pattern] at he
    have hs : shuffleMetronome.Pattern.GetSound 1 2 = ("accent", 1) := by
      simp [Pattern.GetSound, Pattern.GetSound.scan, PredefinedPatterns.shuffle,
        shuffleMetronome]
    rw [hs] at he
    obtain ⟨e1, e2, e3⟩ := he
    have e4 := congrArg Prod.fst e3
    have e5 := congrArg Prod.snd e3
    simp only at e4 e5
    cases hE : (Metronome.ticks 4 shuffleMetronome).handleTick.2 with
    | mk b r v sd =>
      rw [hE] at e1 e2 e4 e5
      simp only at e1 e2 e4 e5
      rw [e1, e2, e4, e5]

/-! ### The ADSR envelope -/

theorem Metronome.adsrEnvelope_eq (m : Metronome) (sample totalSamples : Int) :
    m.adsrEnvelope sample totalSamples = SmartMetronome.adsrEnvelope sample totalSamples :=
  rfl

theorem adsrEnvelope_start (n : Int) (h : 10 ≤ n) : adsrEnvelope 0 n = some 0 := by
  have ha : Int.tdiv n 10 = n / 10 := Int.tdiv_eq_ediv (by omega) (by decide)
  have hpos : 0 < n / 10 := by omega
  have hne : ((n / 10 : Int) : ℚ) ≠ 0 := by exact_mod_cast hpos.ne.symm
  simp only [adsrEnvelope, ha]
  rw [if_pos hpos]
  simp [fdiv, hne]

theorem adsrEnvelope_peak (n : Int) (h : 10 ≤ n) :
    adsrEnvelope (Int.tdiv n 10) n = some 1 := by
  have ha : Int.tdiv n 10 = n / 10 := Int.tdiv_eq_ediv (by omega) (by decide)
  have hd : Int.tdiv n 5 = n / 5 := Int.tdiv_eq_ediv (by omega) (by decide)
  have hpos : 0 < n / 5 := by omega
  have hne : ((n / 5 : Int) : ℚ) ≠ 0 := by exact_mod_cast hpos.ne.symm
  simp only [adsrEnvelope, ha, hd]
  rw [if_neg (lt_irrefl _), if_pos (by omega)]
  simp [fdiv, hne]

theorem adsrEnvelope_release_start (n : Int) (h : 10 ≤ n) :
    adsrEnvelope (n - Int.tdiv n 10) n = some (7 / 10) := by
  have ha : Int.tdiv n 10 = n / 10 := Int.tdiv_eq_ediv (by omega) (by decide)
  have hd : Int.tdiv n 5 = n / 5 := Int.tdiv_eq_ediv (by omega) (by decide)
  have hpos : 0 < n / 10 := by omega
  have hne : ((n / 10 : Int) : ℚ) ≠ 0 := by exact_mod_cast hpos.ne.symm
  simp only [adsrEnvelope, ha, hd]
  rw [if_neg (by omega), if_neg (by omega), if_neg (lt_irrefl _)]
  simp [fdiv, hne]

/-- C6 (as amended): for every tone length `n ≥ 10`, in both copies of the envelope,
the envelope is 0 at sample 0, is 1.0 at the sample at 10% of `n` (index `n / 10`), and
at the sample at 90% of `n` (index `n - n / 10`) it equals the sustain level 0.7: the
release starts at that sample. -/
theorem adsrEnvelope_key_samples (m : Metronome) (n : Int) (h : 10 ≤ n) :
    (adsrEnvelope 0 n = some 0 ∧ adsrEnvelope (Int.tdiv n 10) n = some 1 ∧
      adsrEnvelope (n - Int.tdiv n 10) n = some (7 / 10)) ∧
    (m.adsrEnvelope 0 n = some 0 ∧ m.adsrEnvelope (Int.tdiv n 10) n = some 1 ∧
      m.adsrEnvelope (n - Int.tdiv n 10) n = some (7 / 10)) := by
  simp only [Metronome.adsrEnvelope_eq]
  exact ⟨⟨adsrEnvelope_start n h, adsrEnvelope_peak n h, adsrEnvelope_release_start n h⟩,
    ⟨adsrEnvelope_start n h, adsrEnvelope_peak n h, adsrEnvelope_release_start n h⟩⟩

/-- C6, witness: a tone of 2205 samples (the click of a 120 BPM render). -/
theorem adsrEnvelope_key_samples_witness :
    (10 : Int) ≤ 2205 ∧
    (adsrEnvelope 0 2205 = some 0 ∧ adsrEnvelope (Int.tdiv 2205 10) 2205 = some 1 ∧
      adsrEnvelope (2205 - Int.tdiv 2205 10) 2205 = some (7 / 10)) ∧
    (basicMetronome.adsrEnvelope 0 2205 = some 0 ∧
      basicMetronome.adsrEnvelope (Int.tdiv 2205 10) 2205 = some 1 ∧
      basicMetronome.adsrEnvelope (2205 - Int.tdiv 2205 10) 2205 = some (7 / 10)) :=
  ⟨by decide, adsrEnvelope_key_samples basicMetronome 2205 (by decide)⟩

/-- C6, counterexample to the claim as written: for a tone of 1000 samples the envelope
at the sample at 90% (index 900) is exactly the sustain level 0.7, in both copies; it is
not below one half, let alone near 0. -/
theorem adsrEnvelope_release_counterexample :
    adsrEnvelope (1000 - Int.tdiv 1000 10) 1000 = some (7 / 10) ∧
    basicMetronome.adsrEnvelope (1000 - Int.tdiv 1000 10) 1000 = some (7 / 10) ∧
    ¬ ((7 / 10 : ℚ) < 1 / 2) := by
  refine ⟨adsrEnvelope_release_start 1000 (by decide), ?_, by norm_num⟩
  rw [Metronome.adsrEnvelope_eq]
  exact adsrEnvelope_release_start 1000 (by decide)

/-! ### The offline renderer -/

theorem intervalSamples_eq (m : Metronome) (hb : 0 < m.BPM) :
    m.intervalSamples = some ⌊(44100 * 60 : ℚ) / (m.BPM : ℚ)⌋ ∧
    ⌊(44100 * 60 : ℚ) / (m.BPM : ℚ)⌋ = 2646000 / m.BPM := by
  obtain ⟨k, hk⟩ := Int.eq_ofNat_of_zero_le hb.le
  have hne : (m.BPM : ℚ) ≠ 0 := by exact_mod_cast hb.ne.symm
  have hq : (0 : ℚ) ≤ (44100 * 60 : ℚ) / (m.BPM : ℚ) := by
    apply div_nonneg (by norm_num)
    exact_mod_cast hb.le
  constructor
  · simp only [Metronome.intervalSamples, fdiv, if_neg hne, Option.map, sampleRate, goInt]
    push_cast
    rw [if_pos hq]
  · rw [hk]
    have h := Rat.floor_intCast_div_natCast 2646000 k
    have e : ((44100 * 60 : ℚ)) = ((2646000 : Int) : ℚ) := by norm_num
    rw [e]
    exact_mod_cast h

theorem addSoundToBuffer_step_length (sinTurn : ℚ → ℚ) (m : Metronome)
    (startIdx soundSamples : Int) (freq volume : ℚ) (buf : IntBuffer) (i : Nat) :
    (Metronome.addSoundToBuffer.step sinTurn m startIdx soundSamples freq volume
        buf i).Data.length = buf.Data.length ∧
    (Metronome.addSoundToBuffer.step sinTurn m startIdx soundSamples freq volume
        buf i).Format = buf.Format := by
  unfold Metronome.addSoundToBuffer.step
  split
  · exact ⟨List.length_set _ _ _, rfl⟩
  · exact ⟨rfl, rfl⟩

theorem addSoundToBuffer_length (sinTurn : ℚ → ℚ) (m : Metronome) (buf : IntBuffer)
    (startIdx durationSamples : Int) (soundType : String) (volume : ℚ) :
    (m.addSoundToBuffer sinTurn buf startIdx durationSamples soundType
        volume).Data.length = buf.Data.length ∧
    (m.addSoundToBuffer sinTurn buf startIdx durationSamples soundType
        volume).Format = buf.Format := by
  dsimp only [Metronome.addSoundToBuffer]
  generalize (Int.tdiv durationSamples 10).toNat = k
  induction k with
  | zero => exact ⟨rfl, rfl⟩
  | succ k ih =>
    rw [List.range_succ, List.foldl_append]
    simp only [List.foldl_cons, List.foldl_nil]
    have h := addSoundToBuffer_step_length sinTurn m startIdx (Int.tdiv durationSamples 10)
      (soundFreqVolume soundType volume).1 (soundFreqVolume soundType volume).2
      ((List.range k).foldl (Metronome.addSoundToBuffer.step sinTurn m startIdx
        (Int.tdiv durationSamples 10) (soundFreqVolume soundType volume).1
        (soundFreqVolume soundType volume).2) buf) k
    exact ⟨h.1.trans ih.1, h.2.trans ih.2⟩

theorem walk_succ (sinTurn : ℚ → ℚ) (m : Metronome) (I : Int) (total n : Nat) :
    Metronome.GenerateWAV.walk sinTurn m I total (n + 1) =
      Metronome.GenerateWAV.step sinTurn m I
        (Metronome.GenerateWAV.walk sinTurn m I total n) n := by
  simp [Metronome.GenerateWAV.walk, List.range_succ, List.foldl_append]

theorem walk_buf (sinTurn : ℚ → ℚ) (m : Metronome) (I : Int) (total n : Nat) :
    (Metronome.GenerateWAV.walk sinTurn m I total n).buf.Data.length = total ∧
    (Metronome.GenerateWAV.walk sinTurn m I total n).buf.Format =
      { SampleRate := sampleRate, NumChannels := 2 } := by
  induction n with
  | zero => simp [Metronome.GenerateWAV.walk]
  | succ n ih =>
    rw [walk_succ]
    unfold Metronome.GenerateWAV.step
    split
    · have h := addSoundToBuffer_length sinTurn m
        (Metronome.GenerateWAV.walk sinTurn m I total n).buf (n : Int) I
      simp only [h, ih]
      exact ⟨trivial, trivial⟩
    · exact ih

theorem ceilDiv_succ (I n : Nat) (hI : 0 < I) :
    (n + 1 + I - 1) / I = (n + I - 1) / I + (if n % I = 0 then 1 else 0) := by
  have hdm : I * (n / I) + n % I = n := Nat.div_add_mod n I
  have hlt : n % I < I := Nat.mod_lt _ hI
  have hmul : I * (n / I + 1) = I * (n / I) + I := by ring
  by_cases h0 : n % I = 0
  · rw [if_pos h0]
    have h1 : (n + 1 + I - 1) / I = n / I + 1 ∧ (n + 1 + I - 1) % I = 0 :=
      (Nat.div_mod_unique hI).2 ⟨by omega, hI⟩
    have h2 : (n + I - 1) / I = n / I ∧ (n + I - 1) % I = I - 1 :=
      (Nat.div_mod_unique hI).2 ⟨by omega, by omega⟩
    rw [h1.1, h2.1]
  · rw [if_neg h0]
    have h1 : (n + 1 + I - 1) / I = n / I + 1 ∧ (n + 1 + I - 1) % I = n % I :=
      (Nat.div_mod_unique hI).2 ⟨by omega, by omega⟩
    have h2 : (n + I - 1) / I = n / I + 1 ∧ (n + I - 1) % I = n % I - 1 :=
      (Nat.div_mod_unique hI).2 ⟨by omega, by omega⟩
    rw [h1.1, h2.1]

theorem step_resolved (sinTurn : ℚ → ℚ) (m : Metronome) (I : Int) (st : WavState)
    (i : Nat) :
    (Metronome.GenerateWAV.step sinTurn m I st i).resolved.length =
      st.resolved.length + (if Int.tmod (i : Int) I = 0 then 1 else 0) := by
  unfold Metronome.GenerateWAV.step
  split
  · rfl
  · rfl

theorem walk_resolved (sinTurn : ℚ → ℚ) (m : Metronome) (I total n : Nat) (hI : 0 < I) :
    (Metronome.GenerateWAV.walk sinTurn m (I : Int) total n).resolved.length =
      (n + I - 1) / I := by
  induction n with
  | zero =>
    have h : (0 + I - 1) / I = 0 := Nat.div_eq_of_lt (by omega)
    rw [h]
    rfl
  | succ n ih =>
    rw [walk_succ, ceilDiv_succ I n hI, ← ih, step_resolved, ← Int.ofNat_tmod]
    by_cases h0 : n % I = 0
    · rw [h0]
      rfl
    · have h1 : ¬ (((n % I : Nat) : Int) = 0) := by exact_mod_cast h0
      rw [if_neg h0, if_neg h1]

/-- What `GenerateWAV` returns for a positive tempo and a duration of `d` seconds: it
does not panic; the encoded buffer has `44100 * d` interleaved samples and 2 channels;
a beat is resolved at every multiple of the interval below `44100 * d`. -/
theorem GenerateWAV_run (sinTurn : ℚ → ℚ) (m : Metronome) (d : Nat)
    (hb : 0 < m.BPM) (hb2 : m.BPM ≤ 2646000) :
    ∃ st, m.GenerateWAV sinTurn (d : Int) = some st ∧
      st.buf.Data.length = 44100 * d ∧
      st.buf.Format = { SampleRate := sampleRate, NumChannels := 2 } ∧
      st.resolved.length =
        (44100 * d + (2646000 / m.BPM).toNat - 1) / (2646000 / m.BPM).toNat := by
  obtain ⟨h1, h2⟩ := intervalSamples_eq m hb
  have hipos : 0 < 2646000 / m.BPM := by
    have : (1 : Int) ≤ 2646000 / m.BPM := (Int.le_ediv_iff_mul_le hb).2 (by omega)
    omega
  rw [h2] at h1
  obtain ⟨I, hI⟩ := Int.eq_ofNat_of_zero_le hipos.le
  rw [hI] at h1 hipos
  have hIpos : 0 < I := by exact_mod_cast hipos
  have hT : (sampleRate * (d : Int)).toNat = 44100 * d := by
    simp only [sampleRate]
    have : (44100 : Int) * (d : Int) = ((44100 * d : Nat) : Int) := by push_cast; ring
    rw [this, Int.toNat_ofNat]
  have hneg : ¬ (sampleRate * (d : Int) < 0) := by
    simp only [sampleRate]
    omega
  have hz : ¬ ((I : Int) = 0 ∧ 0 < sampleRate * (d : Int)) := by
    intro h
    omega
  refine ⟨Metronome.GenerateWAV.walk sinTurn m (I : Int) (44100 * d) (44100 * d), ?_, ?_, ?_, ?_⟩
  · simp only [Metronome.GenerateWAV, h1, if_neg hneg, if_neg hz, hT]
  · exact (walk_buf sinTurn m (I : Int) (44100 * d) (44100 * d)).1
  · exact (walk_buf sinTurn m (I : Int) (44100 * d) (44100 * d)).2
  · rw [hI, Int.toNat_ofNat]
    exact walk_resolved sinTurn m I (44100 * d) (44100 * d) hIpos

/-- C7 (what the code does): for every duration `d ≥ 0` the buffer that `GenerateWAV`
builds for the 120 BPM `"basic"` metronome and hands to the 2-channel encoder has
`44100 * d` interleaved samples, that is `22050 * d` stereo frames, half the
`44100 * d` frames of a `d`-second render; for 60 seconds, 1323000 frames and not
`44100 * 60`. -/
theorem GenerateWAV_buffer_frames (sinTurn : ℚ → ℚ) (d : Nat) :
    (∃ st, basicMetronome.GenerateWAV sinTurn (d : Int) = some st ∧
      st.buf.Data.length = 44100 * d ∧ st.buf.Format.NumChannels = 2 ∧
      st.buf.NumFrames = 22050 * (d : Int)) ∧
    (∃ st, basicMetronome.GenerateWAV sinTurn 60 = some st ∧
      st.buf.NumFrames = 1323000 ∧ st.buf.NumFrames ≠ 44100 * 60) := by
  have key : ∀ k : Nat, ∃ st, basicMetronome.GenerateWAV sinTurn (k : Int) = some st ∧
      st.buf.Data.length = 44100 * k ∧ st.buf.Format.NumChannels = 2 ∧
      st.buf.NumFrames = 22050 * (k : Int) := by
    intro k
    obtain ⟨st, h1, h2, h3, _⟩ :=
      GenerateWAV_run sinTurn basicMetronome k (by decide) (by decide)
    refine ⟨st, h1, h2, by rw [h3], ?_⟩
    simp only [IntBuffer.NumFrames, h2, h3]
    rw [Int.tdiv_eq_ediv (by omega) (by decide)]
    push_cast
    omega
  refine ⟨key d, ?_⟩
  obtain ⟨st, h1, _, _, h4⟩ := key 60
  refine ⟨st, h1, ?_, ?_⟩
  · rw [h4]
    rfl
  · rw [h4]
    decide

theorem ceilDiv_of_dvd (I T : Nat) (hI : 0 < I) (h : I ∣ T) : (T + I - 1) / I = T / I := by
  obtain ⟨c, rfl⟩ := h
  have h1 : (I * c + I - 1) / I = c ∧ (I * c + I - 1) % I = I - 1 :=
    (Nat.div_mod_unique hI).2 ⟨by omega, by omega⟩
  rw [h1.1, Nat.mul_div_cancel_left c hI]

/-- C8 (as amended): for every bpm in 20..300 and every duration `d ≥ 0`, `GenerateWAV`
returns, and the number of beat boundaries it resolves is the number of multiples of
the interval `I` among the frame indices `0 .. T - 1` (`T = 44100 * d`), that is
`⌈T / I⌉ = (T + I - 1) / I`; this is `⌊T / I⌋` when `I` divides `T`, and it is 120 for
60 seconds at 120 BPM. -/
theorem GenerateWAV_beat_count (sinTurn : ℚ → ℚ) (m : Metronome) (d : Nat)
    (h20 : 20 ≤ m.BPM) (h300 : m.BPM ≤ 300) :
    ∃ (st : WavState) (I : Nat), m.GenerateWAV sinTurn (d : Int) = some st ∧
      m.intervalSamples = some (I : Int) ∧
      st.resolved.length = (44100 * d + I - 1) / I ∧
      (I ∣ 44100 * d → st.resolved.length = 44100 * d / I) ∧
      (m.BPM = 120 → d = 60 → st.resolved.length = 120) := by
  obtain ⟨st, h1, _, _, h4⟩ := GenerateWAV_run sinTurn m d (by omega) (by omega)
  obtain ⟨e1, e2⟩ := intervalSamples_eq m (by omega)
  have hipos : (1 : Int) ≤ 2646000 / m.BPM :=
    (Int.le_ediv_iff_mul_le (by omega)).2 (by omega)
  have hI : (((2646000 / m.BPM).toNat : Nat) : Int) = 2646000 / m.BPM :=
    Int.toNat_of_nonneg (by omega)
  have hIpos : 0 < (2646000 / m.BPM).toNat := by omega
  refine ⟨st, (2646000 / m.BPM).toNat, h1, ?_, h4, ?_, ?_⟩
  · rw [e1, e2, hI]
  · intro hdvd
    rw [h4]
    exact ceilDiv_of_dvd _ _ hIpos hdvd
  · intro hb hd
    rw [h4, hb, hd]
    decide

/-- C8, witness: 60 seconds at 120 BPM (interval 22050) resolve 120 beat boundaries. -/
theorem GenerateWAV_beat_count_witness :
    ∃ (st : WavState) (I : Nat),
      basicMetronome.GenerateWAV (fun _ => 0) ((60 : Nat) : Int) = some st ∧
      basicMetronome.intervalSamples = some (I : Int) ∧
      st.resolved.length = (44100 * 60 + I - 1) / I ∧
      (I ∣ 44100 * 60 → st.resolved.length = 44100 * 60 / I) ∧
      (basicMetronome.BPM = 120 → 60 = 60 → st.resolved.length = 120) :=
  GenerateWAV_beat_count (fun _ => 0) basicMetronome 60 (by decide) (by decide)

/-- C8, counterexample to the claim as written: 1 second at 20 BPM has
`totalSamples = 44100` and `intervalSamples = 132300`; one beat boundary is resolved
(frame 0), whereas `⌊44100 / 132300⌋ = 0`. -/
theorem GenerateWAV_beat_count_counterexample :
    ∃ st, (basicAt 20).GenerateWAV (fun _ => 0) 1 = some st ∧
      (basicAt 20).intervalSamples = some 132300 ∧
      st.resolved.length = 1 ∧ (44100 * 1 : Int) / 132300 = 0 := by
  obtain ⟨st, h1, _, _, h4⟩ :=
    GenerateWAV_run (fun _ => 0) (basicAt 20) 1 (by decide) (by decide)
  obtain ⟨e1, e2⟩ := intervalSamples_eq (basicAt 20) (by decide)
  have hq : (2646000 : Int) / (basicAt 20).BPM = 132300 := by decide
  refine ⟨st, h1, ?_, ?_, by decide⟩
  · rw [e1, e2, hq]
  · rw [h4, hq]
    decide

/-- C9 (as amended): for every bpm in 20..300 the beat interval `GenerateWAV` uses is
`44100 * 60 / bpm` truncated to an integer, `⌊2646000 / bpm⌋`, the integer quotient of
2646000 by bpm; it is the nearest integer or the integer just below it. -/
theorem intervalSamples_floor (m : Metronome) (h20 : 20 ≤ m.BPM) (h300 : m.BPM ≤ 300) :
    m.intervalSamples = some ⌊(44100 * 60 : ℚ) / (m.BPM : ℚ)⌋ ∧
    ⌊(44100 * 60 : ℚ) / (m.BPM : ℚ)⌋ = 2646000 / m.BPM ∧
    ⌊(44100 * 60 : ℚ) / (m.BPM : ℚ)⌋ ≤ round ((44100 * 60 : ℚ) / (m.BPM : ℚ)) ∧
    round ((44100 * 60 : ℚ) / (m.BPM : ℚ)) ≤ ⌊(44100 * 60 : ℚ) / (m.BPM : ℚ)⌋ + 1 := by
  obtain ⟨e1, e2⟩ := intervalSamples_eq m (by omega)
  refine ⟨e1, e2, ?_, ?_⟩
  · rw [round_eq]
    exact Int.floor_mono (by linarith)
  · rw [round_eq, ← Int.floor_add_one]
    exact Int.floor_mono (by linarith)

/-- C9, witness: at 120 BPM the interval is 22050 samples. -/
theorem intervalSamples_floor_witness :
    basicMetronome.intervalSamples = some ⌊(44100 * 60 : ℚ) / (basicMetronome.BPM : ℚ)⌋ ∧
    ⌊(44100 * 60 : ℚ) / (basicMetronome.BPM : ℚ)⌋ = 2646000 / basicMetronome.BPM ∧
    ⌊(44100 * 60 : ℚ) / (basicMetronome.BPM : ℚ)⌋ ≤
      round ((44100 * 60 : ℚ) / (basicMetronome.BPM : ℚ)) ∧
    round ((44100 * 60 : ℚ) / (basicMetronome.BPM : ℚ)) ≤
      ⌊(44100 * 60 : ℚ) / (basicMetronome.BPM : ℚ)⌋ + 1 :=
  intervalSamples_floor basicMetronome (by decide) (by decide)

/-- C9, counterexample to the claim as written: at 31 BPM, `44100 * 60 / 31` is
85354.83…; the interval used is 85354, the nearest integer is 85355. -/
theorem intervalSamples_round_counterexample :
    (basicAt 31).intervalSamples = some 85354 ∧
    round ((44100 * 60 : ℚ) / ((31 : Int) : ℚ)) = 85355 ∧
    (basicAt 31).intervalSamples ≠ some (round ((44100 * 60 : ℚ) / ((31 : Int) : ℚ))) := by
  obtain ⟨e1, e2⟩ := intervalSamples_eq (basicAt 31) (by decide)
  have hq : (2646000 : Int) / (basicAt 31).BPM = 85354 := by decide
  have hr : round ((44100 * 60 : ℚ) / ((31 : Int) : ℚ)) = 85355 := by
    rw [round_eq, Int.floor_eq_iff]
    constructor <;> norm_num
  have hi : (basicAt 31).intervalSamples = some 85354 := by rw [e1, e2, hq]
  refine ⟨hi, hr, ?_⟩
  rw [hi, hr]
  decide

/-! ### The tap estimator -/

theorem evenTaps_length (start step : Int) (n : Nat) :
    (evenTaps start step n).length = n := by
  induction n generalizing start with
  | zero => rfl
  | succ n ih => simp [evenTaps, ih]

theorem evenTaps_intervals (start step : Int) (n : Nat) :
    List.zipWith (fun prev next => next - prev) (evenTaps start step (n + 1))
      (evenTaps start step (n + 1)).tail = List.replicate n step := by
  induction n generalizing start with
  | zero => simp [evenTaps]
  | succ n ih =>
    have h := ih (start + step)
    rw [evenTaps] at h ⊢
    rw [evenTaps]
    simp only [List.tail_cons, List.zipWith_cons_cons] at h ⊢
    rw [h, List.replicate_succ]
    congr 1
    omega

/-- C10: for every `n ≥ 2` and every start time, a history of `n` taps spaced exactly
500 ms (500000000 ns) apart makes `calculateBPM` return bpm 120 and stability 100. -/
theorem calculateBPM_even_taps (start : Int) (n : Nat) (hn : 2 ≤ n) :
    (withTaps (evenTaps start 500000000 n)).calculateBPM = some (120, 100) := by
  obtain ⟨k, rfl⟩ : ∃ k, n = k + 2 := ⟨n - 2, by omega⟩
  have hlen : (evenTaps start 500000000 (k + 2)).length = k + 2 := evenTaps_length _ _ _
  have hint : TapTempo.intervals (withTaps (evenTaps start 500000000 (k + 2)))
      = List.replicate (k + 1) 500000000 := evenTaps_intervals start 500000000 (k + 1)
  have hk : ((k : Int) + 1) ≠ 0 := by omega
  have hkq : ((k : ℚ) + 1) ≠ 0 := by exact_mod_cast hk
  have hsum : (List.replicate (k + 1) (500000000 : Int)).sum = ((k : Int) + 1) * 500000000 := by
    simp [List.sum_replicate]
  have havg : Int.tdiv (((k : Int) + 1) * 500000000) ((k : Int) + 1) = 500000000 :=
    Int.mul_tdiv_cancel_left _ hk
  have hn1 : (((k + 2 : Nat) : Int) - 1) = (k : Int) + 1 := by push_cast; ring
  have hmin : ¬ (((k + 2 : Nat) : Int) < NewTapTempo.minTaps) := by
    simp only [NewTapTempo]
    omega
  simp only [TapTempo.calculateBPM, hlen, hint, hsum, hn1, if_neg hmin, if_neg hk, havg]
  simp [minute, second, sqrtDuration, Int.tdiv]

/-- C10, witness: the five taps, 500 ms apart, of the example in the specification. -/
theorem calculateBPM_even_taps_witness :
    2 ≤ 5 ∧
    (withTaps (evenTaps 0 500000000 5)).calculateBPM = some (120, 100) :=
  ⟨by decide, calculateBPM_even_taps 0 5 (by decide)⟩

theorem intervals_sum_cons (a : Int) (l : List Int) :
    (List.zipWith (fun prev next => next - prev) (a :: l) l).sum =
      (a :: l).getLastD 0 - a := by
  induction l generalizing a with
  | nil => simp
  | cons b l ih =>
    have h := ih b
    simp only [List.zipWith_cons_cons, List.sum_cons, h]
    simp only [List.getLastD_cons]
    omega

theorem intervals_sum_ge (a : Int) (l : List Int) (h : List.Chain (fun x y => x < y) a l) :
    (l.length : Int) ≤ (List.zipWith (fun prev next => next - prev) (a :: l) l).sum := by
  induction l generalizing a with
  | nil => simp
  | cons b l ih =>
    obtain ⟨hab, hrest⟩ := List.chain_cons.1 h
    have h1 := ih b hrest
    simp only [List.zipWith_cons_cons, List.sum_cons, List.length_cons]
    push_cast
    omega

/-- The value `calculateBPM` returns once its average interval is not zero. -/
theorem calculateBPM_of_avg_ne_zero (t : TapTempo) (hmin : t.minTaps = 2)
    (h2 : 2 ≤ t.taps.length)
    (havg : Int.tdiv t.intervals.sum ((t.taps.length : Int) - 1) ≠ 0) :
    ∃ stability : ℚ, t.calculateBPM =
      some (Int.tdiv minute (Int.tdiv t.intervals.sum ((t.taps.length : Int) - 1)),
        stability) := by
  have hlt : ¬ ((t.taps.length : Int) < t.minTaps) := by
    rw [hmin]
    omega
  have hn : ¬ ((t.taps.length : Int) - 1 = 0) := by omega
  simp only [TapTempo.calculateBPM, if_neg hlt, if_neg hn, if_neg havg]
  exact ⟨_, rfl⟩

/-- C11 (as amended): for every tap history of at least 2 taps whose mean inter-tap
interval is at least 1 ns, `calculateBPM` returns, and its bpm is 60 seconds divided by
the mean interval with both divisions truncated to whole numbers:
`bpm = ⌊60 s / ⌊mean⌋⌋`, not the quotient rounded to the nearest integer. -/
theorem calculateBPM_bpm_truncated (taps : List Int) (h2 : 2 ≤ taps.length)
    (hmean : 1 ≤ meanInterval taps) :
    ∃ stability : ℚ, (withTaps taps).calculateBPM =
      some (⌊(60000000000 : ℚ) / (⌊meanInterval taps⌋ : ℚ)⌋, stability) := by
  obtain ⟨k, hk⟩ : ∃ k, taps.length = k + 2 := ⟨taps.length - 2, by omega⟩
  have hkn : taps.length - 1 = k + 1 := by omega
  have hcast : ((taps.length : Int) - 1) = ((k + 1 : Nat) : Int) := by
    rw [hk]
    push_cast
    ring
  have hkpos : (0 : Int) < ((k + 1 : Nat) : Int) := by
    push_cast
    omega
  generalize hS : (withTaps taps).intervals.sum = S at *
  have hfl : ⌊meanInterval taps⌋ = S / ((k + 1 : Nat) : Int) := by
    rw [meanInterval, hS, hkn]
    exact Rat.floor_intCast_div_natCast S (k + 1)
  have h1 : (1 : Int) ≤ S / ((k + 1 : Nat) : Int) := by
    rw [← hfl]
    exact Int.le_floor.2 (by exact_mod_cast hmean)
  have hsum : 0 ≤ S := by
    by_contra hneg
    have : S / ((k + 1 : Nat) : Int) < 0 := Int.ediv_neg' (by omega) hkpos
    omega
  have havg : Int.tdiv S ((taps.length : Int) - 1) = S / ((k + 1 : Nat) : Int) := by
    rw [hcast]
    exact Int.tdiv_eq_ediv hsum hkpos.le
  obtain ⟨st, hst⟩ := calculateBPM_of_avg_ne_zero (withTaps taps) rfl h2
    (by
      show Int.tdiv (withTaps taps).intervals.sum ((taps.length : Int) - 1) ≠ 0
      rw [hS, havg]
      omega)
  refine ⟨st, ?_⟩
  have hlen : (((withTaps taps).taps.length : Int) - 1) = (taps.length : Int) - 1 := rfl
  rw [hst, hS, hlen, havg, hfl]
  obtain ⟨a, ha⟩ := Int.eq_ofNat_of_zero_le (by omega : 0 ≤ S / ((k + 1 : Nat) : Int))
  rw [ha]
  have hfl2 := Rat.floor_intCast_div_natCast 60000000000 a
  have e : (60000000000 : ℚ) = ((60000000000 : Int) : ℚ) := by norm_num
  have e2 : (((a : Int) : ℚ)) = ((a : Nat) : ℚ) := by norm_cast
  rw [e, e2, hfl2]
  have : Int.tdiv minute (a : Int) = 60000000000 / (a : Int) :=
    Int.tdiv_eq_ediv (by decide) (by omega)
  rw [this]

/-- C11, witness: two taps 700 ms apart (mean interval 700000000 ns) give
`⌊60 s / 0.7 s⌋`. -/
theorem calculateBPM_bpm_truncated_witness :
    1 ≤ meanInterval [0, 700000000] ∧
    ∃ stability : ℚ, (withTaps [0, 700000000]).calculateBPM =
      some (⌊(60000000000 : ℚ) / (⌊meanInterval [0, 700000000]⌋ : ℚ)⌋, stability) :=
  ⟨by norm_num [meanInterval, TapTempo.intervals],
    calculateBPM_bpm_truncated [0, 700000000] (by decide)
      (by norm_num [meanInterval, TapTempo.intervals])⟩

/-- C11, counterexample to the claim as written: two taps 700 ms apart have mean
interval 0.7 s and `60 / 0.7 = 85.71…`; `calculateBPM` returns bpm 85, whereas 60
seconds divided by the mean and rounded to the nearest integer is 86. -/
theorem calculateBPM_round_counterexample :
    0 < meanInterval [0, 700000000] ∧
    (withTaps [0, 700000000]).calculateBPM = some (85, 100) ∧
    round ((60000000000 : ℚ) / meanInterval [0, 700000000]) = 86 := by
  have hm : meanInterval [0, 700000000] = 700000000 := by
    norm_num [meanInterval, TapTempo.intervals]
  refine ⟨by rw [hm]; norm_num, ?_, ?_⟩
  · simp [TapTempo.calculateBPM, TapTempo.intervals, NewTapTempo, minute, second,
      sqrtDuration, Int.tdiv]
  · rw [hm, round_eq, Int.floor_eq_iff]
    constructor <;> norm_num

/-- C17: for every tap history of at least 2 taps with strictly increasing timestamps,
the interval sum `calculateBPM` accumulates is last minus first, the average interval it
computes by integer division is at least 1 ns, and `calculateBPM` returns (neither the
bpm division nor the stability division divides by zero). -/
theorem calculateBPM_avg_positive (taps : List Int) (h2 : 2 ≤ taps.length)
    (hinc : List.Chain' (fun x y => x < y) taps) :
    (TapTempo.intervals (withTaps taps)).sum =
      taps.getLastD 0 - taps.headD 0 ∧
    1 ≤ Int.tdiv (taps.getLastD 0 - taps.headD 0) ((taps.length : Int) - 1) ∧
    ∃ stability : ℚ, TapTempo.calculateBPM (withTaps taps) =
      some (Int.tdiv minute
        (Int.tdiv (taps.getLastD 0 - taps.headD 0) ((taps.length : Int) - 1)),
        stability) := by
  cases taps with
  | nil => simp at h2
  | cons a l =>
    have hsum : (TapTempo.intervals (withTaps (a :: l))).sum =
        (a :: l).getLastD 0 - (a :: l).headD 0 := intervals_sum_cons a l
    have hge : (l.length : Int) ≤
        (TapTempo.intervals (withTaps (a :: l))).sum :=
      intervals_sum_ge a l hinc
    have hl : 1 ≤ l.length := by
      simp only [List.length_cons] at h2
      omega
    have hn : (((a :: l).length : Int) - 1) = (l.length : Int) := by
      simp only [List.length_cons]
      push_cast
      ring
    have hpos : (0 : Int) < (l.length : Int) := by omega
    have havg : 1 ≤ Int.tdiv ((a :: l).getLastD 0 - (a :: l).headD 0)
        (((a :: l).length : Int) - 1) := by
      rw [hn, ← hsum, Int.tdiv_eq_ediv (by omega) hpos.le]
      exact (Int.le_ediv_iff_mul_le hpos).2 (by omega)
    refine ⟨hsum, havg, ?_⟩
    obtain ⟨st, hst⟩ := calculateBPM_of_avg_ne_zero (withTaps (a :: l))
      rfl h2 (by
        show Int.tdiv (TapTempo.intervals (withTaps (a :: l))).sum
          (((a :: l).length : Int) - 1) ≠ 0
        rw [hsum]
        omega)
    refine ⟨st, ?_⟩
    rw [hst, hsum]

/-- C17, witness: three taps at 0 ns, 1 ns and 2 ns, the closest strictly increasing
timestamps can be. -/
theorem calculateBPM_avg_positive_witness :
    (TapTempo.intervals (withTaps [0, 1, 2])).sum =
      ([0, 1, 2] : List Int).getLastD 0 - ([0, 1, 2] : List Int).headD 0 ∧
    1 ≤ Int.tdiv (([0, 1, 2] : List Int).getLastD 0 - ([0, 1, 2] : List Int).headD 0)
      ((([0, 1, 2] : List Int).length : Int) - 1) ∧
    ∃ stability : ℚ, TapTempo.calculateBPM (withTaps [0, 1, 2]) =
      some (Int.tdiv minute
        (Int.tdiv (([0, 1, 2] : List Int).getLastD 0 - ([0, 1, 2] : List Int).headD 0)
          ((([0, 1, 2] : List Int).length : Int) - 1)),
        stability) :=
  calculateBPM_avg_positive [0, 1, 2] (by decide) (by simp)

/-- C12 (as amended): for an estimator with the settings of `NewTapTempo` (at most 8
taps, timeout 2 seconds), after `registerTap` at time `now` the history is the last 8
elements (all of them if fewer) of the prior taps strictly younger than 2 seconds, in
order, followed by `now`; it holds at most 8 taps, ends with `now`, and every tap in it
is strictly younger than 2 seconds. -/
theorem registerTap_history (t : TapTempo) (now : Int) (hmax : t.maxTaps = 8)
    (hto : t.timeout = 2 * second) :
    (t.registerTap now).taps =
      lastN 8 (t.taps.filter (youngerThan (2 * second) now) ++ [now]) ∧
    (t.registerTap now).taps.length ≤ 8 ∧
    (t.registerTap now).taps.getLast? = some now ∧
    ∀ x ∈ (t.registerTap now).taps, now - x < 2 * second := by
  have hfil : (t.taps.filter (fun tap => decide (tap > now - t.timeout))) =
      t.taps.filter (youngerThan (2 * second) now) := by
    apply List.filter_congr
    intro x _
    simp only [youngerThan, hto, gt_iff_lt, decide_eq_decide]
    omega
  generalize hl : t.taps.filter (youngerThan (2 * second) now) = kept at hfil
  have hmem : ∀ x ∈ kept ++ [now], now - x < 2 * second := by
    intro x hx
    rcases List.mem_append.1 hx with h | h
    · rw [← hl] at h
      have := (List.mem_filter.1 h).2
      simp only [youngerThan, decide_eq_true_eq] at this
      exact this
    · simp only [List.mem_singleton] at h
      rw [h]
      simp [second]
  have hreg : (t.registerTap now).taps = lastN 8 (kept ++ [now]) := by
    simp only [TapTempo.registerTap, TapTempo.cleanOldTaps, hfil, lastN, hmax]
    by_cases hgt : (((kept ++ [now]).length : Int)) > 8
    · rw [if_pos hgt]
      congr 1
      omega
    · rw [if_neg hgt]
      have : (kept ++ [now]).length - 8 = 0 := by omega
      rw [this, List.drop_zero]
  refine ⟨hreg, ?_, ?_, ?_⟩
  · rw [hreg, lastN, List.length_drop]
    omega
  · rw [hreg, lastN, List.getLast?_drop, List.getLast?_concat]
    have : ¬ ((kept ++ [now]).length ≤ (kept ++ [now]).length - 8) := by
      simp only [List.length_append, List.length_singleton]
      omega
    rw [if_neg this]
  · intro x hx
    rw [hreg, lastN] at hx
    exact hmem x (List.mem_of_mem_drop hx)

/-- C12, witness: eight taps 100 ms apart and a ninth tap; the oldest is dropped by the
limit of 8. -/
theorem registerTap_history_witness :
    ((withTaps (evenTaps 0 100000000 8)).registerTap 800000000).taps =
      lastN 8 ((evenTaps 0 100000000 8).filter (youngerThan (2 * second) 800000000) ++
        [800000000]) ∧
    ((withTaps (evenTaps 0 100000000 8)).registerTap 800000000).taps.length ≤ 8 ∧
    ((withTaps (evenTaps 0 100000000 8)).registerTap 800000000).taps.getLast? =
      some 800000000 ∧
    ∀ x ∈ ((withTaps (evenTaps 0 100000000 8)).registerTap 800000000).taps,
      800000000 - x < 2 * second :=
  registerTap_history (withTaps (evenTaps 0 100000000 8)) 800000000 rfl rfl

/-- C12, counterexample to the claim as written: with taps at 0, 0.5, 1 and 1.5 s, a
tap registered at 2 s drops the tap at 0 s, which is exactly 2 seconds old and so not
older than 2 seconds; the history of the claim keeps it. -/
theorem registerTap_boundary_counterexample :
    ((withTaps [0, 500000000, 1000000000, 1500000000]).registerTap 2000000000).taps =
      [500000000, 1000000000, 1500000000, 2000000000] ∧
    lastN 8 (([0, 500000000, 1000000000, 1500000000] : List Int).filter
        (notOlderThan (2 * second) 2000000000) ++ [2000000000]) =
      [0, 500000000, 1000000000, 1500000000, 2000000000] := by
  constructor
  · simp [TapTempo.registerTap, TapTempo.cleanOldTaps, NewTapTempo, second]
  · simp [lastN, notOlderThan, second]

/-! ### Safety of the envelope -/

theorem fdiv_unit (x y : Int) (h0 : 0 ≤ x) (hxy : x < y) :
    fdiv (x : ℚ) (y : ℚ) = some ((x : ℚ) / (y : ℚ)) ∧
    0 ≤ (x : ℚ) / (y : ℚ) ∧ (x : ℚ) / (y : ℚ) ≤ 1 := by
  have hy : (0 : ℚ) < (y : ℚ) := by exact_mod_cast (by omega : (0 : Int) < y)
  have hx : (0 : ℚ) ≤ (x : ℚ) := by exact_mod_cast h0
  have hle : (x : ℚ) ≤ (y : ℚ) := by exact_mod_cast hxy.le
  refine ⟨?_, div_nonneg hx hy.le, (div_le_one hy).2 hle⟩
  simp [fdiv, hy.ne.symm]

/-- C16: for every `totalSamples ≥ 1` and every `0 ≤ sample < totalSamples`, both
copies of the envelope return a finite value (no division by a zero attack, decay or
release length) and that value lies in the interval from 0 to 1. -/
theorem adsrEnvelope_range (m : Metronome) (sample totalSamples : Int)
    (ht : 1 ≤ totalSamples) (h0 : 0 ≤ sample) (hlt : sample < totalSamples) :
    ∃ e : ℚ, adsrEnvelope sample totalSamples = some e ∧
      m.adsrEnvelope sample totalSamples = some e ∧ 0 ≤ e ∧ e ≤ 1 := by
  have ha : Int.tdiv totalSamples 10 = totalSamples / 10 :=
    Int.tdiv_eq_ediv (by omega) (by decide)
  have hd : Int.tdiv totalSamples 5 = totalSamples / 5 :=
    Int.tdiv_eq_ediv (by omega) (by decide)
  rw [Metronome.adsrEnvelope_eq]
  simp only [adsrEnvelope, ha, hd]
  by_cases c1 : sample < totalSamples / 10
  · rw [if_pos c1]
    obtain ⟨e1, e2, e3⟩ := fdiv_unit sample (totalSamples / 10) h0 c1
    exact ⟨_, e1, e1, e2, e3⟩
  · rw [if_neg c1]
    by_cases c2 : sample < totalSamples / 10 + totalSamples / 5
    · rw [if_pos c2]
      obtain ⟨e1, e2, e3⟩ := fdiv_unit (sample - totalSamples / 10) (totalSamples / 5)
        (by omega) (by omega)
      rw [e1]
      refine ⟨_, rfl, rfl, ?_, ?_⟩
      · nlinarith
      · nlinarith
    · rw [if_neg c2]
      by_cases c3 : sample < totalSamples - totalSamples / 10
      · rw [if_pos c3]
        exact ⟨_, rfl, rfl, by norm_num, by norm_num⟩
      · rw [if_neg c3]
        obtain ⟨e1, e2, e3⟩ := fdiv_unit (sample - (totalSamples - totalSamples / 10))
          (totalSamples / 10) (by omega) (by omega)
        rw [e1]
        refine ⟨_, rfl, rfl, ?_, ?_⟩
        · simp only [Option.map]
          nlinarith
        · simp only [Option.map]
          nlinarith

/-- C16, witness: the last sample of a 5-sample tone, where attack and release have
length 0. -/
theorem adsrEnvelope_range_witness :
    ∃ e : ℚ, adsrEnvelope 4 5 = some e ∧
      basicMetronome.adsrEnvelope 4 5 = some e ∧ 0 ≤ e ∧ e ≤ 1 :=
  adsrEnvelope_range basicMetronome 4 5 (by decide) (by decide) (by decide)

/-! ### Subscriber fan-out -/

/-- C13: `notifySubscribers` keeps the number and order of the subscriber queues;
queue number `i` afterwards is queue number `i` before with the event appended when it
held fewer than 100 events, and unchanged when it was full, whatever the other queues
hold; no other field of the scheduler changes. -/
theorem notifySubscribers_queues (m : Metronome) (event : TickEvent) :
    (m.notifySubscribers event).subscribers.length = m.subscribers.length ∧
    (∀ i : Nat, (m.notifySubscribers event).subscribers[i]? =
      (m.subscribers[i]?).map (fun ch => if ch.length < 100 then ch ++ [event] else ch)) ∧
    (∀ ch ∈ m.subscribers, ch.length < 100 →
      ch ++ [event] ∈ (m.notifySubscribers event).subscribers) ∧
    (∀ ch ∈ m.subscribers, ¬ ch.length < 100 →
      ch ∈ (m.notifySubscribers event).subscribers) ∧
    { m.notifySubscribers event with subscribers := m.subscribers } = m := by
  refine ⟨?_, ?_, ?_, ?_, ?_⟩
  · simp [Metronome.notifySubscribers]
  · intro i
    simp [Metronome.notifySubscribers]
  · intro ch hch hlen
    simp only [Metronome.notifySubscribers, List.mem_map]
    exact ⟨ch, hch, by rw [if_pos hlen]⟩
  · intro ch hch hlen
    simp only [Metronome.notifySubscribers, List.mem_map]
    exact ⟨ch, hch, by rw [if_neg hlen]⟩
  · rfl

/-- C13, witness: with a full first queue and an empty second queue, the first stays as
it is and the second receives the event. -/
theorem notifySubscribers_queues_witness :
    (fanoutMetronome.notifySubscribers
        { Beat := 2, Bar := 1, Volume := 7 / 10, Sound := "normal" }).subscribers[0]? =
      some (List.replicate 100 { Beat := 1, Bar := 1, Volume := 1, Sound := "accent" }) ∧
    (fanoutMetronome.notifySubscribers
        { Beat := 2, Bar := 1, Volume := 7 / 10, Sound := "normal" }).subscribers[1]? =
      some [{ Beat := 2, Bar := 1, Volume := 7 / 10, Sound := "normal" }] := by
  have h := (notifySubscribers_queues fanoutMetronome
    { Beat := 2, Bar := 1, Volume := 7 / 10, Sound := "normal" }).2.1
  constructor
  · rw [h 0]
    simp [fanoutMetronome]
  · rw [h 1]
    simp [fanoutMetronome]

/-! ### Control calls -/

/-- C14 (what the code does): on a running metronome, for every bpm in 20..300,
`SetBPM bpm` called with the mutex free does not return: it takes `m.mu` and then blocks
forever in the `m.mu.Lock()` of `Stop`, with the state unchanged (BPM not set, nothing
stopped or restarted). -/
theorem SetBPM_running_blocks (m : Metronome) (bpm : Int) (hrun : m.Running = true)
    (h20 : 20 ≤ bpm) (h300 : bpm ≤ 300) :
    m.SetBPM false bpm = .blocked m ∧
    ∀ (err : Option String) (m1 : Metronome) (mu : Bool),
      m.SetBPM false bpm ≠ .returned err m1 mu := by
  have hr : ¬ (bpm < 20 ∨ bpm > 300) := by omega
  have hb : m.SetBPM false bpm = .blocked m := by
    simp [Metronome.SetBPM, hr, hrun, Metronome.Stop]
  refine ⟨hb, ?_⟩
  intro err m1 mu
  rw [hb]
  exact fun h => Outcome.noConfusion h

/-- C14, witness: `SetBPM 125` on the running 120 BPM metronome. -/
theorem SetBPM_running_blocks_witness :
    runningMetronome.Running = true ∧
    runningMetronome.SetBPM false 125 = .blocked runningMetronome ∧
    ∀ (err : Option String) (m1 : Metronome) (mu : Bool),
      runningMetronome.SetBPM false 125 ≠ .returned err m1 mu :=
  ⟨rfl, SetBPM_running_blocks runningMetronome 125 rfl (by decide) (by decide)⟩

/-- C15 (what the code does): from `NewMetronome 120 4 basic`, the calls `Start`, `Stop`,
`Start` all return and leave `Running = true` with the stop channel closed, and a
further `Stop` panics on closing the closed channel. -/
theorem start_stop_start_closed :
    NewMetronome 120 4 PredefinedPatterns.basic = .ok basicMetronome ∧
    basicMetronome.calls [.start, .stop, .start] =
      .returned none { basicMetronome with Running := true, stopChanClosed := true }
        false ∧
    basicMetronome.calls [.start, .stop, .start, .stop] =
      .panicked { basicMetronome with Running := false, stopChanClosed := true } := by
  refine ⟨rfl, ?_, ?_⟩
  · simp [Metronome.calls, Metronome.call, Metronome.Start, Metronome.Stop,
      basicMetronome]
  · simp [Metronome.calls, Metronome.call, Metronome.Start, Metronome.Stop,
      basicMetronome]

end SmartMetronome
